import Mathlib

/-!
Verification of the WASMTerminal host runtime against its specification.

The definitions below are a shallow embedding of the JavaScript sources:
  * `src/site/linux.js`        — the controller (main-thread message callbacks),
  * `src/site/linux-worker.js` — the per-task runner (syscall translation, host calls),
  * `src/site/net-proxy.js`    — the network relay client.

Shared integer "messenger" arrays are modelled by the ordered trace of
`Atomics.store` / `Atomics.notify` operations a callback performs on them;
memories are byte lists; the controller's connection map is a function
from ids to optional records.
-/

namespace WasmTerminal

/-! ## Messenger traces (controller side, `src/site/linux.js`)

Each controller callback completes a host call by a sequence of
`Atomics.store(messenger, slot, val)` and `Atomics.notify(messenger, slot)`
operations.  A callback is modelled as the list of these operations in
program order, as a function of the inputs that select its branch. -/

/-- One atomic operation on a messenger: a store of `val` into `slot`, or a
notify on `slot`.  Slot 0 is the `status` slot of every messenger. -/
inductive MEvent where
  | store (slot : Nat) (val : Int)
  | notify (slot : Nat)
deriving DecidableEq, Repr

/-- A connection record held by the controller (`netConnections` in
`linux.js`): buffered received bytes, a closed flag and an error slot. -/
structure ConnRec where
  buffer : List Nat
  closed : Bool
  error : Option String
deriving DecidableEq, Repr

/-- The controller's `netConnections` map (`connId -> record`). -/
def NetConns : Type := Nat → Option ConnRec

/-- `Map.delete` on the connection map. -/
def mapDelete (m : NetConns) (id : Nat) : NetConns :=
  fun k => if k = id then none else m k

/-- `console_read` callback: writes the number of bytes it copied
(`min inputLen count`) into slot 0 of the console messenger and notifies.
The console messenger has a single slot serving as both status and result. -/
def console_read_trace (inputLen count : Nat) : List MEvent :=
  [ MEvent.store 0 (Int.ofNat (min inputLen count)), MEvent.notify 0 ]

/-- `net_open` callback.  `openResult = some connId` models a successful
`netProxy.open`, `none` a rejected one.  Source order: status slot 0 is
stored first, then the result slot 1, then the notify. -/
def net_open_trace (proxyAvail : Bool) (openResult : Option Int) : List MEvent :=
  if proxyAvail = false then
    [ MEvent.store 0 1, MEvent.store 1 (-1), MEvent.notify 0 ]
  else
    match openResult with
    | some connId => [ MEvent.store 0 0, MEvent.store 1 connId, MEvent.notify 0 ]
    | none => [ MEvent.store 0 1, MEvent.store 1 (-1), MEvent.notify 0 ]

/-- `net_write` callback. `ok` models `netProxy.write` not throwing. -/
def net_write_trace (proxyAvail : Bool) (ok : Bool) : List MEvent :=
  if proxyAvail = false then [ MEvent.store 0 1, MEvent.notify 0 ]
  else if ok then [ MEvent.store 0 0, MEvent.notify 0 ]
  else [ MEvent.store 0 1, MEvent.notify 0 ]

/-- `net_read` callback on the record looked up for the requested id. -/
def net_read_trace (conn : Option ConnRec) (count : Nat) : List MEvent :=
  match conn with
  | none => [ MEvent.store 0 1, MEvent.store 1 0, MEvent.notify 0 ]
  | some c =>
    if 0 < c.buffer.length then
      [ MEvent.store 0 0, MEvent.store 1 (Int.ofNat (min c.buffer.length count)),
        MEvent.notify 0 ]
    else if c.closed then
      [ MEvent.store 0 3, MEvent.store 1 0, MEvent.notify 0 ]
    else if c.error.isSome then
      [ MEvent.store 0 1, MEvent.store 1 0, MEvent.notify 0 ]
    else
      [ MEvent.store 0 0, MEvent.store 1 0, MEvent.notify 0 ]

/-- `net_poll` callback on the record looked up for the requested id. -/
def net_poll_trace (conn : Option ConnRec) : List MEvent :=
  match conn with
  | none => [ MEvent.store 0 1, MEvent.notify 0 ]
  | some c =>
    if c.error.isSome then [ MEvent.store 0 3, MEvent.notify 0 ]
    else if c.closed && c.buffer.isEmpty then [ MEvent.store 0 2, MEvent.notify 0 ]
    else if 0 < c.buffer.length then [ MEvent.store 0 1, MEvent.notify 0 ]
    else [ MEvent.store 0 0, MEvent.notify 0 ]

/-- `net_close` callback: deletes the record only when a proxy is configured
and the record exists, then unconditionally stores status 0 and notifies.
Returns the updated connection map and the messenger trace. -/
def net_close_step (proxyAvail : Bool) (conns : NetConns) (id : Nat) :
    NetConns × List MEvent :=
  ( if proxyAvail && (conns id).isSome then mapDelete conns id else conns,
    [ MEvent.store 0 0, MEvent.notify 0 ] )

/-- `fs_save` callback. `ok` models `fsPersist.saveFile` not throwing. -/
def fs_save_trace (persistAvail : Bool) (ok : Bool) : List MEvent :=
  if persistAvail = false then [ MEvent.store 0 1, MEvent.notify 0 ]
  else if ok then [ MEvent.store 0 0, MEvent.notify 0 ]
  else [ MEvent.store 0 1, MEvent.notify 0 ]

/-- `fs_load` callback.  `loadResult` is the outcome of
`fsPersist.loadFile`: `.error ()` a thrown error, `.ok none` a missing file,
`.ok (some content)` the file's bytes. -/
def fs_load_trace (persistAvail : Bool)
    (loadResult : Except Unit (Option (List Nat))) (count : Nat) : List MEvent :=
  if persistAvail = false then
    [ MEvent.store 0 1, MEvent.store 1 0, MEvent.notify 0 ]
  else
    match loadResult with
    | Except.error _ => [ MEvent.store 0 1, MEvent.store 1 0, MEvent.notify 0 ]
    | Except.ok none => [ MEvent.store 0 2, MEvent.store 1 0, MEvent.notify 0 ]
    | Except.ok (some content) =>
      [ MEvent.store 0 0, MEvent.store 1 (Int.ofNat (min content.length count)),
        MEvent.notify 0 ]

/-- `fs_delete` callback. -/
def fs_delete_trace (persistAvail : Bool) (ok : Bool) : List MEvent :=
  if persistAvail = false then [ MEvent.store 0 1, MEvent.notify 0 ]
  else if ok then [ MEvent.store 0 0, MEvent.notify 0 ]
  else [ MEvent.store 0 1, MEvent.notify 0 ]

/-- `fs_list` callback.  `listResult` is the newline-joined, UTF-8 encoded
path list on success (`encoded` in the source), or a thrown error. -/
def fs_list_trace (persistAvail : Bool) (listResult : Except Unit (List Nat))
    (count : Nat) : List MEvent :=
  if persistAvail = false then
    [ MEvent.store 0 1, MEvent.store 1 0, MEvent.notify 0 ]
  else
    match listResult with
    | Except.error _ => [ MEvent.store 0 1, MEvent.store 1 0, MEvent.notify 0 ]
    | Except.ok encoded =>
      [ MEvent.store 0 0, MEvent.store 1 (Int.ofNat (min encoded.length count)),
        MEvent.notify 0 ]

/-- The first value stored into the `status` slot (slot 0) of the trace. -/
def statusOf (t : List MEvent) : Option Int :=
  t.findSome? (fun e =>
    match e with
    | MEvent.store 0 v => some v
    | _ => none)

/-- `noResultStoreAfterStatus seen t` checks that `t` contains no store to a
result slot (slot ≠ 0) after a store to the status slot (slot 0); `seen`
records whether a status store has already occurred. -/
def noResultStoreAfterStatus : Bool → List MEvent → Bool
  | _, [] => true
  | seen, MEvent.store s _ :: r =>
    if s == 0 then noResultStoreAfterStatus true r
    else !seen && noResultStoreAfterStatus seen r
  | seen, MEvent.notify _ :: r => noResultStoreAfterStatus seen r

/-- Whether every result-slot store of a trace precedes every status store. -/
def resultsBeforeStatus (t : List MEvent) : Bool :=
  noResultStoreAfterStatus false t

/-- Runner-side `wasm_net_close` (`src/site/linux-worker.js`): after the
messenger round-trip it returns 0 regardless of the observed status. -/
def wasm_net_close (_observedStatus : Int) : Int := 0

/-! ## Syscall translation (`src/site/linux-worker.js`, `user_executable_setup`)

Memories are byte lists. The translator state carries the isolated user
memory, the shared kernel memory, the per-task scratch region
(`syscall_buffer_offset` / `syscall_buffer_size`) and the bump pointer
(`syscall_buffer_current`). -/

/-- A linear memory as a list of byte values. -/
abbrev Mem : Type := List Nat

/-- Read `n` bytes of `m` starting at `ptr` (a `Uint8Array` view). -/
def readBytes (m : Mem) (ptr n : Nat) : List Nat :=
  ((List.drop ptr m).take n)

/-- Overwrite the bytes of `m` at `ptr` with `bs` (a `Uint8Array.set`). -/
def writeBytes (m : Mem) (ptr : Nat) (bs : List Nat) : Mem :=
  (List.take ptr m) ++ bs ++ List.drop (ptr + bs.length) m

/-- The failure an overflowing scratch allocation raises
(the thrown `Error("Syscall buffer overflow: ...")`). -/
inductive TErr where
  | overflow
deriving DecidableEq, Repr

/-- Translator state for one user task. -/
structure TransSt where
  user : Mem
  kernel : Mem
  scratchBase : Nat
  scratchSize : Nat
  cur : Nat
deriving DecidableEq, Repr

/-- `syscall_buffer_current = (syscall_buffer_current + 7) & ~7`:
round `n` up to the next multiple of 8. -/
def align8 (n : Nat) : Nat := (n + 7) - (n + 7) % 8

/-- `reset_syscall_buffer`: the bump pointer after the reset performed at the
start of each translated syscall. -/
def reset_syscall_buffer : Nat := 0

/-- `alloc_syscall_buffer(size)`: align the bump pointer to 8 bytes, reserve
`size` bytes, fail when the new bump pointer exceeds the scratch size, and
return the absolute kernel pointer together with the new bump pointer. -/
def alloc_syscall_buffer (base bufSize cur size : Nat) :
    Except TErr (Nat × Nat) :=
  let aligned := align8 cur
  let cur2 := aligned + size
  if bufSize < cur2 then Except.error TErr.overflow
  else Except.ok (base + aligned, cur2)

/-- Run a sequence of scratch allocations, returning the allocated pointers
and the final bump pointer. -/
def runAllocs (base bufSize : Nat) : Nat → List Nat → Except TErr (List Nat × Nat)
  | cur, [] => Except.ok ([], cur)
  | cur, size :: rest =>
    match alloc_syscall_buffer base bufSize cur size with
    | Except.error e => Except.error e
    | Except.ok (p, cur2) =>
      match runAllocs base bufSize cur2 rest with
      | Except.error e => Except.error e
      | Except.ok (ps, curF) => Except.ok (p :: ps, curF)

/-- `copy_in(user_ptr, size)`: a null pointer stays null with no allocation
and no copy; otherwise allocate scratch space, copy the user bytes into it,
and return the kernel pointer. -/
def copy_in (st : TransSt) (userPtr size : Nat) : Except TErr (Nat × TransSt) :=
  if userPtr = 0 then Except.ok (0, st)
  else
    match alloc_syscall_buffer st.scratchBase st.scratchSize st.cur size with
    | Except.error e => Except.error e
    | Except.ok (kptr, cur2) =>
      Except.ok (kptr,
        { st with
          cur := cur2,
          kernel := writeBytes st.kernel kptr (readBytes st.user userPtr size) })

/-- The terminator scan of `copy_string_in`:
`while (user_u8[user_ptr + len] !== 0) len++`.  Returns the first offset at
which a zero byte sits in user memory at or after `ptr`; `none` when no such
byte exists, in which case the JavaScript loop never terminates (out-of-range
reads yield `undefined`, which differs from 0). -/
def findNullLen (user : Mem) (ptr : Nat) : Option Nat :=
  (List.drop ptr user).findIdx? (fun b => b == 0)

/-- `copy_string_in(user_ptr)`: null stays null; otherwise scan for the
terminator and copy the string including it.  The outer `Option` is `none`
exactly when the scan does not terminate. -/
def copy_string_in (st : TransSt) (userPtr : Nat) :
    Option (Except TErr (Nat × TransSt)) :=
  if userPtr = 0 then some (Except.ok (0, st))
  else
    match findNullLen st.user userPtr with
    | none => none
    | some n => some (copy_in st userPtr (n + 1))

/-- `copy_out(user_ptr, kernel_ptr, size)`: a no-op when either pointer is
null, otherwise copy `size` bytes from kernel memory to user memory. -/
def copy_out (st : TransSt) (userPtr kernelPtr size : Nat) : TransSt :=
  if userPtr = 0 ∨ kernelPtr = 0 then st
  else { st with user := writeBytes st.user userPtr (readBytes st.kernel kernelPtr size) }

/-! ### Syscall descriptor table (`SYSCALL_POINTER_MAP`) -/

/-- One entry of `SYSCALL_POINTER_MAP`.  The `sizes` field maps an argument
position to the numeric value stored in the source table (a JavaScript
number literal; e.g. `sizes: { 1: 2 }` for `pread64`). -/
structure SMap where
  inArgs : List Nat := []
  outArgs : List Nat := []
  strArgs : List Nat := []
  sizes : List (Nat × Nat) := []
deriving Repr

/-- Syscall numbers used by the descriptor table (RISC-V numbering). -/
def SYS_read : Nat := 63
def SYS_pread64 : Nat := 67
def SYS_getdents64 : Nat := 61
def SYS_readlinkat : Nat := 78
def SYS_readv : Nat := 65

/-- The descriptor entries relevant to the read-like syscalls:
`read`, `getdents64`, `pread64` and `readlinkat` from `SYSCALL_POINTER_MAP`,
with the numeric `sizes` values exactly as in the source. -/
def SYSCALL_POINTER_MAP (nr : Nat) : Option SMap :=
  if nr = SYS_read then some { outArgs := [1], sizes := [(1, 2)] }
  else if nr = SYS_getdents64 then some { outArgs := [1], sizes := [(1, 2)] }
  else if nr = SYS_pread64 then some { outArgs := [1], sizes := [(1, 2)] }
  else if nr = SYS_readlinkat then
    some { inArgs := [1], outArgs := [2], strArgs := [1], sizes := [(2, 3)] }
  else none

/-- The wrapper's `actual_size` computation for argument position `i`:
`map.sizes[i]` is looked up and — being a JavaScript number whenever
present — is consumed by the `typeof size === 'number'` branch as a
constant byte count.  (The `actual_size = original_args[size]` arg-index
branch is unreachable: every value in the source table is a number.) -/
def actualSize (m : SMap) (i : Nat) : Option Nat :=
  (m.sizes.find? (fun p => p.1 == i)).map (fun p => p.2)

/-- The copy-back half of the four-argument syscall wrapper
(`make_syscall_wrapper`, `case 4`): for every output position the
`actual_size` bytes are copied back when `actual_size` is truthy, except
that `readlinkat`'s buffer (position 2) copies back exactly the positive
return value.  `origArgs` are the user-side arguments, `args` the
translated ones passed to the kernel entry. -/
def case4_copy_out (nr : Nat) (origArgs args : List Nat) (result : Int)
    (st : TransSt) : TransSt :=
  match SYSCALL_POINTER_MAP nr with
  | none => st
  | some m =>
    (List.range 4).foldl
      (fun acc i =>
        if m.outArgs.contains i then
          if nr = SYS_readlinkat ∧ i = 2 ∧ 0 < result then
            copy_out acc (origArgs.getD i 0) (args.getD i 0) result.toNat
          else
            match actualSize m i with
            | some s =>
              if s ≠ 0 then copy_out acc (origArgs.getD i 0) (args.getD i 0) s
              else acc
            | none => acc
        else acc)
      st

/-! ## Cooperative hand-off (`serialize_tasks` / `serialize_me`)

The target runner's shared cells: its `last_task` cell and the `serialize`
slot of its lock block. -/

/-- The shared cells of one runner. -/
structure RunnerCells where
  lastTask : Nat
  serialize : Nat
deriving DecidableEq, Repr

/-- The shared-memory operations the controller performs during
`serialize_tasks`, in program order. -/
inductive HandoffEv where
  | writeLastTask (v : Nat)
  | storeSerialize (v : Nat)
  | notifySerialize
deriving DecidableEq, Repr

/-- Controller callback `serialize_tasks`: write the previous task id into
the target runner's `last_task` cell, then `lock_notify` — store 1 into its
`serialize` slot and notify.  Returns the target's new cells and the event
trace. -/
def serialize_tasks_step (prevTask : Nat) (c : RunnerCells) :
    RunnerCells × List HandoffEv :=
  ( { c with lastTask := prevTask, serialize := 1 },
    [ HandoffEv.writeLastTask prevTask, HandoffEv.storeSerialize 1,
      HandoffEv.notifySerialize ] )

/-- Runner-side `serialize_me`: `lock_wait` blocks while the `serialize` slot
is 0 (`none`); once it is non-zero the runner clears the slot and returns the
content of its `last_task` cell. -/
def serialize_me (c : RunnerCells) : Option (Nat × RunnerCells) :=
  if c.serialize = 0 then none
  else some (c.lastTask, { c with serialize := 0 })

/-- Index of the first `writeLastTask` event of a trace. -/
def idxWriteLastTask (t : List HandoffEv) : Option Nat :=
  t.findIdx? (fun e =>
    match e with
    | HandoffEv.writeLastTask _ => true
    | _ => false)

/-- Index of the first non-zero `storeSerialize` event of a trace. -/
def idxStoreSerializeNZ (t : List HandoffEv) : Option Nat :=
  t.findIdx? (fun e =>
    match e with
    | HandoffEv.storeSerialize v => v != 0
    | _ => false)

/-! ## Network relay client (`src/site/net-proxy.js`) -/

/-- A client-side connection record (`this.connections`): buffered data
chunks, the closed flag, the error slot, and whether each callback has been
registered (the callbacks themselves are abstracted to their presence;
invocations are recorded as events). -/
structure NPConn where
  buffer : List (List Nat)
  closed : Bool
  error : Option String
  hasOnData : Bool
  hasOnClose : Bool
  hasOnError : Bool
deriving DecidableEq, Repr

/-- The relay client's state: the connection map in insertion order and the
ids with a pending open. -/
structure NPState where
  connections : List (Nat × NPConn)
  pendingOpens : List Nat
deriving DecidableEq, Repr

/-- Externally observable callback invocations of the relay client. -/
inductive NPEvent where
  | invokeClose (id : Nat)
  | rejectOpen (id : Nat)
deriving DecidableEq, Repr

/-- `this.connections.get(id)`. -/
def np_lookup (st : NPState) (id : Nat) : Option NPConn :=
  (st.connections.find? (fun p => p.1 == id)).map (fun p => p.2)

/-- The `ws.onclose` handler: mark every connection closed and invoke its
`onClose` handler, clear the connection map, reject every pending open, and
clear the pending map.  Returns the new state and the invoked callbacks in
order. -/
def ws_onclose (st : NPState) : NPState × List NPEvent :=
  let closeEvs :=
    (st.connections.filter (fun p => p.2.hasOnClose)).map
      (fun p => NPEvent.invokeClose p.1)
  let rejectEvs := st.pendingOpens.map NPEvent.rejectOpen
  ({ connections := [], pendingOpens := [] }, closeEvs ++ rejectEvs)

/-- `isClosed(connId)`: true when no record exists or the record is closed. -/
def np_isClosed (st : NPState) (id : Nat) : Bool :=
  match np_lookup st id with
  | none => true
  | some c => c.closed

/-- `write(connId, data)`: throws when no record exists; otherwise sends a
write frame (the state is unchanged). -/
def np_write (st : NPState) (id : Nat) (_data : List Nat) : Except String NPState :=
  if (np_lookup st id).isSome then Except.ok st
  else Except.error "Connection not found"

/-! ## Import fix-up for unimplemented syscalls (`init` in `linux-worker.js`) -/

/-- One entry of `WebAssembly.Module.imports(vmlinux)`. -/
structure ImportDecl where
  module : String
  name : String
  kind : String
deriving DecidableEq, Repr

/-- The keys of the `host_callbacks` object, in source order. -/
def hostCallbackNames : List String :=
  [ "wasm_start_cpu", "wasm_stop_cpu", "wasm_create_and_run_task",
    "wasm_release_task", "wasm_serialize_tasks", "wasm_panic",
    "wasm_dump_stacktrace", "wasm_load_executable", "wasm_user_mode_tail",
    "wasm_cpu_clock_get_monotonic", "wasm_driver_hvc_put",
    "wasm_driver_hvc_get", "wasm_net_open", "wasm_net_write",
    "wasm_net_read", "wasm_net_poll", "wasm_net_close", "wasm_fs_save",
    "wasm_fs_load", "wasm_fs_delete", "wasm_fs_list" ]

/-- What a name of the `env` import namespace ends up bound to. -/
inductive EnvBinding where
  | hostFn (name : String)
  | kernelMemory
  | niStub
deriving DecidableEq, Repr

/-- The prefix tested by `imported.name.startsWith("sys_")`. -/
def sysNamePre : String := "sys_"

/-- `s.startsWith(pre)` on the underlying character lists (the executable
form of `String.startsWith`, which the kernel cannot evaluate). -/
def strStartsWith (s pre : String) : Bool :=
  decide (s.data.take pre.data.length = pre.data)

/-- The filter of the fix-up loop: an `env` function import whose name
begins with the syscall prefix. -/
def isNiImport (i : ImportDecl) : Bool :=
  strStartsWith i.name sysNamePre && i.module == "env" && i.kind == "function"

/-- The stub bound to such imports: `() => -38` — JavaScript ignores any
arguments passed to it. -/
def ni_syscall (_args : List Int) : Int := -38

/-- The import object's `env` namespace after `init` builds it: the spread
of `host_callbacks` plus the kernel `memory`, overridden by the `ni_syscall`
stub for every `sys_`-named `env` function import of the kernel module. -/
def build_env (imps : List ImportDecl) (n : String) : Option EnvBinding :=
  if imps.any (fun i => isNiImport i && i.name == n) then some EnvBinding.niStub
  else if n == "memory" then some EnvBinding.kernelMemory
  else if hostCallbackNames.contains n then some (EnvBinding.hostFn n)
  else none

/-- The poll result code of the amended claim C5, following the worker's
documentation of `wasm_net_poll` (0 = no data, 1 = data available — also the
code for an unknown id, 2 = connection closed and drained, 3 = connection
error). -/
def spec_poll_code (conn : Option ConnRec) : Int :=
  match conn with
  | none => 1
  | some c =>
    if c.error.isSome then 3
    else if c.closed && c.buffer.isEmpty then 2
    else if 0 < c.buffer.length then 1
    else 0

/-! ## Helper lemmas -/

theorem align8_mod8 (n : Nat) : align8 n % 8 = 0 := by
  unfold align8
  omega

theorem align8_le_of_alloc (bufSize cur size : Nat)
    (h : ¬ bufSize < align8 cur + size) : align8 cur + size ≤ bufSize := by
  omega

theorem runAllocs_ok_aligned (base bufSize : Nat) :
    ∀ (sizes : List Nat) (cur : Nat) (ps : List Nat) (f : Nat),
      cur ≤ bufSize →
      runAllocs base bufSize cur sizes = Except.ok (ps, f) →
      (ps.all (fun p => (p - base) % 8 == 0)) = true ∧ f ≤ bufSize := by
  intro sizes
  induction sizes with
  | nil =>
    intro cur ps f hcur hrun
    unfold runAllocs at hrun
    injection hrun with h
    injection h with h1 h2
    subst h1
    subst h2
    exact ⟨rfl, hcur⟩
  | cons size rest ih =>
    intro cur ps f hcur hrun
    unfold runAllocs at hrun
    unfold alloc_syscall_buffer at hrun
    by_cases hover : bufSize < align8 cur + size
    · rw [if_pos hover] at hrun
      exact Except.noConfusion hrun
    · rw [if_neg hover] at hrun
      dsimp only at hrun
      cases hrest : runAllocs base bufSize (align8 cur + size) rest with
      | error e =>
        rw [hrest] at hrun
        exact Except.noConfusion hrun
      | ok pcf =>
        rw [hrest] at hrun
        dsimp only at hrun
        injection hrun with h
        injection h with h1 h2
        subst h2
        obtain ⟨htail, hf⟩ := ih (align8 cur + size) pcf.1 pcf.2 (by omega) (by
          rw [hrest])
        subst h1
        constructor
        · simp only [List.all_cons, htail, Bool.and_true]
          have : (base + align8 cur - base) % 8 = 0 := by
            have := align8_mod8 cur
            omega
          simpa using this
        · exact hf

theorem invokeClose_count_eq_one (id : Nat) (c : NPConn) :
    ∀ l : List (Nat × NPConn),
      (l.map Prod.fst).Nodup →
      l.find? (fun p => p.1 == id) = some (id, c) →
      c.hasOnClose = true →
      ((l.filter (fun p => p.2.hasOnClose)).map
          (fun p => NPEvent.invokeClose p.1)).count (NPEvent.invokeClose id) = 1 := by
  intro l
  induction l with
  | nil =>
    intro _ hf _
    exact absurd hf (by simp)
  | cons a t ih =>
    intro hnd hf hcb
    have hnd2 : (t.map Prod.fst).Nodup := by
      simpa using (List.nodup_cons.mp (by simpa using hnd)).2
    by_cases ha : (a.1 == id) = true
    · simp only [List.find?_cons, ha] at hf
      injection hf with hf
      subst hf
      have hy : (∀ x : NPConn, (id, x) ∉ t) ∧ (t.map Prod.fst).Nodup := by
        simpa using hnd
      have hzero :
          ((t.filter (fun p => p.2.hasOnClose)).map
              (fun p => NPEvent.invokeClose p.1)).count (NPEvent.invokeClose id) = 0 := by
        rw [List.count_eq_zero]
        intro hmem
        rcases List.mem_map.mp hmem with ⟨p, hp, hpe⟩
        injection hpe with hpe
        obtain ⟨p1, p2⟩ := p
        dsimp at hpe
        subst hpe
        exact hy.1 p2 (List.mem_filter.mp hp).1
      simp only [List.filter_cons, hcb, if_pos, List.map_cons]
      rw [List.count_cons]
      simp [hzero]
    · have haf : (a.1 == id) = false := by simpa using ha
      simp only [List.find?_cons, haf] at hf
      have hne : ¬ a.1 = id := by simpa using haf
      rw [List.filter_cons]
      by_cases hac : a.2.hasOnClose
      · rw [if_pos (by simpa using hac), List.map_cons, List.count_cons]
        have : (NPEvent.invokeClose a.1 == NPEvent.invokeClose id) = false := by
          simp [hne]
        rw [this]
        simpa using ih hnd2 hf hcb
      · rw [if_neg (by simpa using hac)]
        exact ih hnd2 hf hcb

theorem rejectOpen_count_eq_one (id : Nat) (pend : List Nat)
    (hnd : pend.Nodup) (hmem : id ∈ pend) :
    ((pend.map NPEvent.rejectOpen).count (NPEvent.rejectOpen id)) = 1 := by
  have hinj : Function.Injective NPEvent.rejectOpen := by
    intro a b h
    injection h
  rw [List.count_map_of_injective pend NPEvent.rejectOpen hinj id]
  exact List.count_eq_one_of_mem hnd hmem

theorem invokeClose_count_in_rejects (id : Nat) (pend : List Nat) :
    ((pend.map NPEvent.rejectOpen).count (NPEvent.invokeClose id)) = 0 := by
  rw [List.count_eq_zero]
  intro hmem
  rcases List.mem_map.mp hmem with ⟨x, _, hx⟩
  exact NPEvent.noConfusion hx

theorem rejectOpen_count_in_closes (id : Nat) (l : List (Nat × NPConn)) :
    (((l.filter (fun p => p.2.hasOnClose)).map
        (fun p => NPEvent.invokeClose p.1)).count (NPEvent.rejectOpen id)) = 0 := by
  rw [List.count_eq_zero]
  intro hmem
  rcases List.mem_map.mp hmem with ⟨x, _, hx⟩
  exact NPEvent.noConfusion hx

theorem np_lookup_find (st : NPState) (id : Nat) (c : NPConn)
    (h : np_lookup st id = some c) :
    st.connections.find? (fun p => p.1 == id) = some (id, c) := by
  unfold np_lookup at h
  cases hq : st.connections.find? (fun p => p.1 == id) with
  | none =>
    rw [hq] at h
    exact Option.noConfusion h
  | some q =>
    rw [hq] at h
    injection h with h
    have hkey : (q.1 == id) = true := by
      have := List.find?_some hq
      simpa using this
    have hkey2 : q.1 = id := by simpa using hkey
    have h2 : q.2 = c := h
    have hqe : q = (id, c) := by
      obtain ⟨q1, q2⟩ := q
      dsimp at hkey2 h2
      rw [hkey2, h2]
    rw [hqe]

/-! ## Claim theorems -/

/-- Claim C1 (code bug): for host calls with separate result slots the
controller in fact stores the `status` slot (slot 0) **before** the result
slot (slot 1): a successful `net_open` stores status 0, then the connection
id, then notifies, and a successful `fs_load` stores status 0, then the byte
count — so it is false that every result slot is written before `status`. -/
theorem controller_stores_status_before_result_slots :
    resultsBeforeStatus (net_open_trace true (some 5)) = false ∧
    resultsBeforeStatus (fs_load_trace true (Except.ok (some [104, 105, 33])) 16) = false := by
  exact ⟨rfl, rfl⟩

/-- Claim C2 (code bug): `pread64` (nr 67, four arguments) is dispatched to
the four-argument wrapper, which has no read-like special case; its copy-out
consumes the sizes-map value 2 (meant as "length is argument 2, the count")
as a constant byte count, so it always copies exactly 2 bytes.  With buffer
pointer 2, `count = 8` and kernel return `N = 3`, only user bytes 2 and 3
are written and the third of the `N` bytes stays 0 instead of becoming 14
(fewer than `N` bytes copied); with the same call returning `N = 1`, the
identical 2-byte copy writes user byte 3, one byte beyond `N`. -/
theorem pread64_copy_out_is_constant_two_bytes :
    (case4_copy_out SYS_pread64 [3, 2, 8, 0] [3, 2, 8, 0] 3
        { user := List.replicate 16 0,
          kernel := [0, 0, 12, 13, 14, 15, 16, 17, 18, 19, 0, 0, 0, 0, 0, 0],
          scratchBase := 12, scratchSize := 64, cur := 0 }).user
      = [0, 0, 12, 13, 0, 0, 0, 0, 0, 0, 0, 0, 0, 0, 0, 0] ∧
    (case4_copy_out SYS_pread64 [3, 2, 8, 0] [3, 2, 8, 0] 1
        { user := List.replicate 16 0,
          kernel := [0, 0, 12, 13, 14, 15, 16, 17, 18, 19, 0, 0, 0, 0, 0, 0],
          scratchBase := 12, scratchSize := 64, cur := 0 }).user
      = [0, 0, 12, 13, 0, 0, 0, 0, 0, 0, 0, 0, 0, 0, 0, 0] := by
  exact ⟨by decide, by decide⟩

/-- Claim C3 (code bug): the terminator scan of `copy_string_in` does not
terminate when user memory holds no zero byte at or after the string pointer
(outcome `none`); only when a terminator exists — even beyond the scratch
budget — does the translation terminate, failing with the overflow error
when the string exceeds the budget. -/
theorem string_scan_diverges_without_terminator :
    copy_string_in
        { user := [9, 1, 2, 3], kernel := List.replicate 8 0,
          scratchBase := 8, scratchSize := 4, cur := 0 } 1 = none ∧
    copy_string_in
        { user := [9, 1, 1, 1, 1, 0, 7], kernel := List.replicate 8 0,
          scratchBase := 8, scratchSize := 4, cur := 0 } 1
      = some (Except.error TErr.overflow) := by
  exact ⟨rfl, rfl⟩

/-- Claim C4: within one translated syscall the scratch bump pointer starts
from the reset value 0; every allocation returns an 8-byte-aligned offset
into the scratch region; on success the bump pointer never exceeds the
scratch size; and an allocation that would exceed it fails with the
distinguished overflow error (never a truncated success). -/
theorem scratch_allocator_discipline :
    reset_syscall_buffer = 0 ∧
    (∀ base bufSize cur size,
      match alloc_syscall_buffer base bufSize cur size with
      | Except.ok pc =>
        pc.1 = base + align8 cur ∧ (pc.1 - base) % 8 = 0 ∧ pc.2 ≤ bufSize
      | Except.error e => e = TErr.overflow ∧ bufSize < align8 cur + size) ∧
    (∀ base bufSize sizes,
      match runAllocs base bufSize reset_syscall_buffer sizes with
      | Except.ok pc =>
        (pc.1.all (fun p => (p - base) % 8 == 0)) = true ∧ pc.2 ≤ bufSize
      | Except.error e => e = TErr.overflow) := by
  refine ⟨rfl, ?_, ?_⟩
  · intro base bufSize cur size
    unfold alloc_syscall_buffer
    by_cases h : bufSize < align8 cur + size
    · rw [if_pos h]
      exact ⟨rfl, h⟩
    · rw [if_neg h]
      refine ⟨rfl, ?_, by omega⟩
      have := align8_mod8 cur
      omega
  · intro base bufSize sizes
    cases hrun : runAllocs base bufSize reset_syscall_buffer sizes with
    | error e => cases e; rfl
    | ok pc =>
      exact runAllocs_ok_aligned base bufSize sizes reset_syscall_buffer pc.1 pc.2
        (Nat.zero_le _) (by rw [hrun])

/-- Counterexample to claim C5: `net_poll` on a connection that is closed
with a drained buffer stores status **2** — a network operation writing the
code the claim reserves for persistence not-found — and `console_read` of
2 buffered bytes stores **2** (the byte count) into its status slot. -/
theorem net_poll_and_console_read_break_status_convention :
    statusOf (net_poll_trace (some { buffer := [], closed := true, error := none }))
        = some 2 ∧
    statusOf (console_read_trace 2 99) = some 2 := by
  exact ⟨rfl, rfl⟩

/-- Amended claim C5: the uniform status convention (0 success, 1 generic
error, 2 only persistence not-found, 3 only network remote-closed) holds for
the network open/write/read/close calls and the persistence calls; the
console read messenger's slot instead carries the byte count, and network
poll's status slot carries the poll result code of `spec_poll_code`. -/
theorem host_call_status_convention_amended :
    (∀ p r, statusOf (net_open_trace p r) = some 0 ∨
      statusOf (net_open_trace p r) = some 1) ∧
    (∀ p ok, statusOf (net_write_trace p ok) = some 0 ∨
      statusOf (net_write_trace p ok) = some 1) ∧
    (∀ conn count,
      (statusOf (net_read_trace conn count) = some 0 ∨
       statusOf (net_read_trace conn count) = some 1 ∨
       statusOf (net_read_trace conn count) = some 3) ∧
      (statusOf (net_read_trace conn count) = some 3 ↔
        ∃ c, conn = some c ∧ c.buffer = [] ∧ c.closed = true)) ∧
    (∀ p conns id, statusOf (net_close_step p conns id).2 = some 0) ∧
    (∀ p ok, statusOf (fs_save_trace p ok) = some 0 ∨
      statusOf (fs_save_trace p ok) = some 1) ∧
    (∀ p r count,
      (statusOf (fs_load_trace p r count) = some 0 ∨
       statusOf (fs_load_trace p r count) = some 1 ∨
       statusOf (fs_load_trace p r count) = some 2) ∧
      (statusOf (fs_load_trace p r count) = some 2 ↔
        p = true ∧ r = Except.ok none)) ∧
    (∀ p ok, statusOf (fs_delete_trace p ok) = some 0 ∨
      statusOf (fs_delete_trace p ok) = some 1) ∧
    (∀ p r count, statusOf (fs_list_trace p r count) = some 0 ∨
      statusOf (fs_list_trace p r count) = some 1) ∧
    (∀ conn, statusOf (net_poll_trace conn) = some (spec_poll_code conn)) ∧
    (∀ len count, statusOf (console_read_trace len count)
      = some (Int.ofNat (min len count))) := by
  refine ⟨?_, ?_, ?_, ?_, ?_, ?_, ?_, ?_, ?_, ?_⟩
  · intro p r
    cases p
    · right; rfl
    · cases r
      · right; rfl
      · left; rfl
  · intro p ok
    cases p
    · right; rfl
    · cases ok
      · right; rfl
      · left; rfl
  · intro conn count
    cases conn with
    | none =>
      refine ⟨Or.inr (Or.inl rfl), ?_⟩
      simp [net_read_trace, statusOf]
    | some c =>
      by_cases hbuf : 0 < c.buffer.length
      · constructor
        · left
          simp [net_read_trace, hbuf, statusOf]
        · simp only [net_read_trace, if_pos hbuf]
          constructor
          · intro h
            simp [statusOf] at h
          · rintro ⟨c2, hc2, hb, _⟩
            injection hc2 with hc2
            subst hc2
            rw [hb] at hbuf
            simp at hbuf
      · have hlen : c.buffer.length = 0 := by omega
        have hnil : c.buffer = [] := List.length_eq_zero.mp hlen
        by_cases hcl : c.closed
        · constructor
          · right; right
            simp [net_read_trace, hbuf, hcl, statusOf]
          · constructor
            · intro _
              exact ⟨c, rfl, hnil, hcl⟩
            · intro _
              simp [net_read_trace, hbuf, hcl, statusOf]
        · constructor
          · by_cases herr : c.error.isSome
            · right; left
              simp [net_read_trace, hbuf, hcl, herr, statusOf]
            · left
              simp [net_read_trace, hbuf, hcl, herr, statusOf]
          · constructor
            · intro h
              by_cases herr : c.error.isSome <;>
                simp [net_read_trace, hbuf, hcl, herr, statusOf] at h
            · rintro ⟨c2, hc2, _, hcl2⟩
              injection hc2 with hc2
              subst hc2
              exact absurd hcl2 (by simpa using hcl)
  · intro p conns id
    rfl
  · intro p ok
    cases p
    · right; rfl
    · cases ok
      · right; rfl
      · left; rfl
  · intro p r count
    cases p
    · refine ⟨Or.inr (Or.inl rfl), ?_⟩
      constructor
      · intro h
        simp [fs_load_trace, statusOf] at h
      · rintro ⟨h, _⟩
        exact Bool.noConfusion h
    · cases r with
      | error e =>
        refine ⟨Or.inr (Or.inl rfl), ?_⟩
        constructor
        · intro h
          simp [fs_load_trace, statusOf] at h
        · rintro ⟨_, h⟩
          exact Except.noConfusion h
      | ok file =>
        cases file with
        | none => exact ⟨Or.inr (Or.inr rfl), by simp [fs_load_trace, statusOf]⟩
        | some content =>
          refine ⟨Or.inl rfl, ?_⟩
          constructor
          · intro h
            simp [fs_load_trace, statusOf] at h
          · rintro ⟨_, h⟩
            injection h with h
            exact Option.noConfusion h
  · intro p ok
    cases p
    · right; rfl
    · cases ok
      · right; rfl
      · left; rfl
  · intro p r count
    cases p
    · right; rfl
    · cases r
      · right; rfl
      · left; rfl
  · intro conn
    cases conn with
    | none => rfl
    | some c =>
      by_cases herr : c.error.isSome
      · simp [net_poll_trace, spec_poll_code, herr, statusOf]
      · by_cases hcd : c.closed && c.buffer.isEmpty
        · simp [net_poll_trace, spec_poll_code, herr, hcd, statusOf]
        · by_cases hbuf : 0 < c.buffer.length
          · simp [net_poll_trace, spec_poll_code, herr, hcd, hbuf, statusOf]
          · simp [net_poll_trace, spec_poll_code, herr, hcd, hbuf, statusOf]
  · intro len count
    rfl

/-- Claim C6: every `env` function import of the kernel module whose name
begins with the syscall prefix and is not a host callback ends up bound to
the `ni_syscall` stub, and the stub returns −38 for any argument list. -/
theorem unimplemented_sys_imports_bound_to_stub :
    ∀ (imps : List ImportDecl) (n : String) (args : List Int),
      ImportDecl.mk "env" n "function" ∈ imps →
      strStartsWith n sysNamePre = true →
      hostCallbackNames.contains n = false →
      build_env imps n = some EnvBinding.niStub ∧ ni_syscall args = -38 := by
  intro imps n args hmem hpre _hhost
  have hany : imps.any (fun i => isNiImport i && i.name == n) = true := by
    refine List.any_eq_true.mpr ⟨ImportDecl.mk "env" n "function", hmem, ?_⟩
    simp [isNiImport, hpre]
  constructor
  · unfold build_env
    rw [if_pos hany]
  · rfl

/-- Witness for claim C6: the kernel module importing `sys_999` from `env`
gets the stub, and calling it with three arguments returns −38. -/
theorem unimplemented_sys_imports_bound_to_stub_witness :
    build_env [ImportDecl.mk "env" "sys_999" "function"] "sys_999"
        = some EnvBinding.niStub ∧
    ni_syscall [7, 8, 9] = -38 :=
  unimplemented_sys_imports_bound_to_stub
    [ImportDecl.mk "env" "sys_999" "function"] "sys_999" [7, 8, 9]
    (by decide) (by decide) (by decide)

/-- Claim C7: a null user pointer in an input position is passed through as
a null kernel pointer with no scratch allocation and no copy (both for plain
buffers and for strings), and a copy-out whose user destination — or whose
kernel source — is null leaves the state, in particular user memory,
unchanged. -/
theorem null_pointer_translation :
    (∀ st size, copy_in st 0 size = Except.ok (0, st)) ∧
    (∀ st, copy_string_in st 0 = some (Except.ok (0, st))) ∧
    (∀ st kernelPtr size, copy_out st 0 kernelPtr size = st) ∧
    (∀ st userPtr size, copy_out st userPtr 0 size = st) := by
  refine ⟨fun st size => rfl, fun st => rfl, fun st k s => rfl, fun st p s => ?_⟩
  simp [copy_out]

/-- Claim C8: when the relay channel closes, every connection with a
registered close handler has it invoked exactly once, every pending open is
rejected exactly once, and afterwards `isClosed` is true and `write` fails
for every id. -/
theorem channel_close_rejects_pending_and_closes_connections :
    ∀ (st : NPState) (id : Nat) (c : NPConn) (data : List Nat),
      (st.connections.map Prod.fst).Nodup →
      st.pendingOpens.Nodup →
      ((np_lookup st id = some c ∧ c.hasOnClose = true) →
        (ws_onclose st).2.count (NPEvent.invokeClose id) = 1) ∧
      (id ∈ st.pendingOpens →
        (ws_onclose st).2.count (NPEvent.rejectOpen id) = 1) ∧
      np_isClosed (ws_onclose st).1 id = true ∧
      (∃ e, np_write (ws_onclose st).1 id data = Except.error e) := by
  intro st id c data hndc hndp
  refine ⟨?_, ?_, rfl, ⟨"Connection not found", rfl⟩⟩
  · rintro ⟨hlk, hcb⟩
    have hfind := np_lookup_find st id c hlk
    show ((_ ++ _ : List NPEvent).count _) = 1
    rw [List.count_append,
      invokeClose_count_eq_one id c st.connections hndc hfind hcb,
      invokeClose_count_in_rejects]
  · intro hmem
    show ((_ ++ _ : List NPEvent).count _) = 1
    rw [List.count_append, rejectOpen_count_in_closes,
      rejectOpen_count_eq_one id st.pendingOpens hndp hmem]

/-- A connection record with a registered close handler, used by the
witness for claim C8. -/
def exNPConn : NPConn :=
  { buffer := [], closed := false, error := none,
    hasOnData := false, hasOnClose := true, hasOnError := false }

/-- A relay-client state with open connections 7 and 8 and a pending open 9,
used by the witness for claim C8. -/
def exNPState : NPState :=
  { connections := [(7, exNPConn), (8, exNPConn)], pendingOpens := [9] }

/-- Witness for claim C8: with connections 7 and 8 open and id 9 pending,
channel close invokes connection 7's close handler exactly once, rejects the
pending open 9 exactly once, and afterwards `isClosed 7` holds and
`write 7` fails. -/
theorem channel_close_rejects_and_closes_witness :
    (ws_onclose exNPState).2.count (NPEvent.invokeClose 7) = 1 ∧
    (ws_onclose exNPState).2.count (NPEvent.rejectOpen 9) = 1 ∧
    np_isClosed (ws_onclose exNPState).1 7 = true ∧
    (∃ e, np_write (ws_onclose exNPState).1 7 [1] = Except.error e) :=
  have h7 := channel_close_rejects_pending_and_closes_connections
    exNPState 7 exNPConn [1] (by decide) (by decide)
  have h9 := channel_close_rejects_pending_and_closes_connections
    exNPState 9 exNPConn [1] (by decide) (by decide)
  ⟨h7.1 ⟨rfl, rfl⟩, h9.2.1 (by decide), h7.2.2.1, h7.2.2.2⟩

/-- Claim C9: `serialize_tasks` writes the previous task id into the target
runner's `last_task` cell strictly before the non-zero store into its
`serialize` slot, and the woken runner's `serialize_me` returns exactly the
handed-off task id. -/
theorem handoff_last_task_written_before_serialize_release :
    ∀ (prevTask : Nat) (c : RunnerCells),
      ∃ i j,
        idxWriteLastTask (serialize_tasks_step prevTask c).2 = some i ∧
        idxStoreSerializeNZ (serialize_tasks_step prevTask c).2 = some j ∧
        i < j ∧
        serialize_me (serialize_tasks_step prevTask c).1
          = some (prevTask, { lastTask := prevTask, serialize := 0 }) := by
  intro prevTask c
  exact ⟨0, 1, rfl, rfl, Nat.zero_lt_one, rfl⟩

/-- Claim C10: the `net_close` host call reports success for every
connection id: the controller stores status 0 unconditionally (deleting the
record exactly when the proxy is configured, and only when a record exists),
and the runner-side `wasm_net_close` returns 0 for every observed status. -/
theorem net_close_always_reports_success :
    ∀ (proxyAvail : Bool) (conns : NetConns) (id : Nat) (s : Int),
      statusOf (net_close_step proxyAvail conns id).2 = some 0 ∧
      wasm_net_close s = 0 ∧
      (net_close_step proxyAvail conns id).1 id
        = (if proxyAvail then none else conns id) := by
  intro p conns id s
  refine ⟨rfl, rfl, ?_⟩
  cases p with
  | false => simp [net_close_step]
  | true =>
    by_cases h : (conns id).isSome
    · simp [net_close_step, h, mapDelete]
    · have h2 : conns id = none := Option.not_isSome_iff_eq_none.mp h
      simp [net_close_step, h2]

end WasmTerminal
